import Mathlib

/-!
Shallow embedding of `src/stravaview/stravadb.py` (the `Strava` class and its
helper functions) and proofs about the sync pipeline and query composer.

Modelling conventions:
* Python `None` is `Option.none`; a fallible computation is `Except Unit`.
* Timestamps and dates are `Int` (ordered, as the SQL layer orders them).
* A `timedelta` is its whole number of seconds (`Int`); Python `divmod` is
  floor division, i.e. `Int.fdiv` / `Int.fmod`.
* External collaborators (the Strava API, the MySQL engine, the reverse
  geocoder) are black boxes per the design: their responses are data fields
  on the model (`zones`, `geo`) or explicit parameters (the remote activity
  list, the stored tables as Lean lists).
* Float-valued unit conversions (distance km, elevation m, speed km/h,
  calories) are floating-point formatting and are outside the embedding; the
  corresponding record fields carry the integral source values unchanged.
  String escaping targets the external SQL layer and is not modelled.
-/

namespace StravaDB

/-- Python `"\x7b:02d\x7d".format(n)`: zero-pad to two digits. -/
def format02d (n : Int) : String :=
  if 0 ≤ n ∧ n < 10 then "0" ++ toString n else toString n

/-- Embedding of `_format_timedelta`: `None` gives `""`; otherwise
`divmod(seconds, 3600)` then `divmod(remainder, 60)` formatted `H:MM:SS`. -/
def _format_timedelta (t : Option Int) : String :=
  match t with
  | none => ""
  | some secs =>
    let hours := Int.fdiv secs 3600
    let mins := Int.fmod secs 3600
    let minutes := Int.fdiv mins 60
    let seconds := Int.fmod mins 60
    toString hours ++ ":" ++ format02d minutes ++ ":" ++ format02d seconds

/-- An address is the `dict` of the geocoder's `location.raw['address']`,
as an association list from keys to values. -/
abbrev Address := List (String × String)

/-- The loop in `_get_location` over the priority keys: first key present
wins; no key present gives `""`. -/
def cityLoop (address : Address) : List String → String
  | [] => ""
  | k :: ks =>
    match address.lookup k with
    | some v => v
    | none => cityLoop address ks

/-- Embedding of `_get_location`. The input is the geocoder response:
`none` is `location.raw is None`, `some none` is a raw dict without an
`address` key, `some (some address)` is the address dict. The unguarded
Python subscript `address['country']` is a `KeyError`, i.e. `.error ()`. -/
def _get_location (raw : Option (Option Address)) : Except Unit String :=
  match raw with
  | none => .ok ""
  | some none => .ok ""
  | some (some address) =>
    let city := cityLoop address ["hamlet", "village", "city_district", "city", "town"]
    match address.lookup "country" with
    | none => .error ()
    | some country =>
      let code :=
        if country == "France" then
          match address.lookup "postcode" with
          | some pc => " (" ++ pc.take 2 ++ ")"
          | none => ""
        else ""
      .ok (city ++ code)

/-- One heart-rate training zone of an activity, as used by `_get_points`. -/
structure Zone where
  type : String
  points : Int
deriving DecidableEq, Repr

/-- A remote Strava activity: the attributes `push_activity` and
`_get_points` read. `zones` is the result of the zones lookup
(`.error` = the lookup raised, `.ok none` = the attribute is `None`,
`.ok (some zs)` = the zone list). `geo` is the reverse-geocoder response
for `start_latlng`, shaped as in `_get_location`. -/
structure Activity where
  id : Int
  athlete : Int
  name : Option String
  type : String
  commute : Bool
  start_date_local : Int
  moving_time : Option Int
  elapsed_time : Option Int
  gear_id : Option String
  average_heartrate : Option Int
  max_heartrate : Option Int
  suffer_score : Option Int
  calories : Option Int
  description : Option String
  has_heartrate : Bool
  zones : Except Unit (Option (List Zone))
  geo : Option (Option Address)
deriving Repr

/-- The loop `for z in zones: if z.type == 'heartrate': return z.points` in
`_get_points`; falling off the loop is Python's implicit `None`. -/
def pointsLoop : List Zone → Option Int
  | [] => none
  | z :: zs => if z.type == "heartrate" then some z.points else pointsLoop zs

/-- Embedding of `Strava._get_points`: `0` when the configuration flag is
off or the activity has no heart-rate data; inside the `try`, `0` when the
lookup raised, when `zones` is `None` (so `len(zones)` raises, caught), or
when the list is empty; otherwise the loop over the zones. -/
def _get_points (with_points : Bool) (a : Activity) : Option Int :=
  if !with_points || !a.has_heartrate then some 0
  else
    match a.zones with
    | .error _ => some 0
    | .ok none => some 0
    | .ok (some zs) => if zs.length = 0 then some 0 else pointsLoop zs

/-- A row of the activities table, with the fields `push_activity` writes. -/
structure StoredActivity where
  id : Int
  athlete : Int
  name : Option String
  location : String
  date : Int
  moving_time : String
  elapsed_time : String
  gear_id : Option String
  average_heartrate : Int
  max_heartrate : Option Int
  suffer_score : Int
  red_points : Option Int
  description : Option String
  commute : Int
  type : String
  calories : Int
deriving DecidableEq, Repr

/-- The duplicate check `SELECT * FROM activities WHERE id=... LIMIT 1`. -/
def activityExists (table : List StoredActivity) (i : Int) : Bool :=
  table.any (fun r => r.id == i)

/-- The value block of `push_activity`: defaults of `0`, overridden when the
source attribute is present; `max_heartrate`, `suffer_score` and
`red_points` are only assigned inside the `average_heartrate is not None`
branch, `red_points` only when additionally `suffer_score is not None`. -/
def mkRow (with_points : Bool) (loc : String) (a : Activity) : StoredActivity :=
  { id := a.id
    athlete := a.athlete
    name := a.name
    location := loc
    date := a.start_date_local
    moving_time := _format_timedelta a.moving_time
    elapsed_time := _format_timedelta a.elapsed_time
    gear_id := a.gear_id
    average_heartrate := match a.average_heartrate with | none => 0 | some v => v
    max_heartrate := match a.average_heartrate with | none => some 0 | some _ => a.max_heartrate
    suffer_score :=
      match a.average_heartrate, a.suffer_score with
      | some _, some s => s
      | _, _ => 0
    red_points :=
      match a.average_heartrate, a.suffer_score with
      | some _, some _ => _get_points with_points a
      | _, _ => some 0
    description := a.description
    commute := if a.commute then 1 else 0
    type := a.type
    calories := match a.calories with | none => 0 | some c => c }

/-- The type guard of `push_activity`: an activity passes when its type is
`RIDE`, `RUN` or `HIKE` (the stravalib constants are the strings below). -/
def validType (s : String) : Bool :=
  s == "Ride" || s == "Run" || s == "Hike"

/-- Embedding of `Strava.push_activity`: skip when the id already exists,
skip when the type is not a ride, run or hike; otherwise compute the row
(the `_get_location` call can raise, which propagates) and insert it. -/
def push_activity (with_points : Bool) (table : List StoredActivity) (a : Activity) :
    Except Unit (List StoredActivity) :=
  if activityExists table a.id then .ok table
  else if !validType a.type then .ok table
  else
    match _get_location a.geo with
    | .error e => .error e
    | .ok loc => .ok (table ++ [mkRow with_points loc a])

/-- The `for activity in new_activities` loop of `update_activities`: each
activity is pushed in turn; an uncaught exception aborts the batch. -/
def update_list (with_points : Bool) (table : List StoredActivity) :
    List Activity → Except Unit (List StoredActivity)
  | [] => .ok table
  | a :: rest =>
    match push_activity with_points table a with
    | .error e => .error e
    | .ok t => update_list with_points t rest

/-- The query `SELECT date FROM activities ORDER BY date DESC LIMIT 1`:
the maximal stored date, `none` on an empty table. -/
def latestDate : List StoredActivity → Option Int
  | [] => none
  | r :: rs =>
    match latestDate rs with
    | none => some r.date
    | some d => some (max r.date d)

/-- Modelled from the spec: the remote client's list-activities call with an
optional lower bound (`get_activities(after=...)` on the API, an external
collaborator) returns the activities with start time at least the bound. -/
def fetchActivities (remote : List Activity) (after : Option Int) : List Activity :=
  match after with
  | none => remote
  | some d => remote.filter (fun a => decide (d ≤ a.start_date_local))

/-- Embedding of `Strava.update_activities` over a fixed remote data set:
fetch everything newer than the latest stored date and push each activity. -/
def update_activities (with_points : Bool) (remote : List Activity)
    (table : List StoredActivity) : Except Unit (List StoredActivity) :=
  update_list with_points table (fetchActivities remote (latestDate table))

/-- A row of the gears table, as written by `update_bikes` / `update_shoes`
(the `type` column holds the gear category). -/
structure GearRow where
  id : String
  name : String
  type : String
deriving DecidableEq, Repr

/-- One WHERE clause of the query built by `get_activities`, in the order
and shape the code appends them to `conds`. -/
inductive Cond where
  | dateLe (d : Int)
  | dateGe (d : Int)
  | nameLike (pat : String)
  | actType (s : String)
  | gearType (s : String)
deriving DecidableEq, Repr

/-- The class constant `ACTIVITY_TYPES`. -/
def ACTIVITY_TYPES : List String :=
  ["Hike", "Run", "Ride", "Road", "MTB", "CX", "TT"]

/-- The condition-list construction of `get_activities`: optional `before`,
`after` and `name` clauses, then the category clause — dropped (after a
warning) when the value is not in `ACTIVITY_TYPES`, on the activity type
column for `Hike`/`Run`/`Ride`, else on the joined gear type column. -/
def buildConds (before after : Option Int) (nm : Option String) (ty : Option String) :
    List Cond :=
  (match before with | none => [] | some d => [Cond.dateLe d])
  ++ (match after with | none => [] | some d => [Cond.dateGe d])
  ++ (match nm with | none => [] | some s => [Cond.nameLike s])
  ++ (match ty with
      | none => []
      | some s =>
        if !(ACTIVITY_TYPES.contains s) then []
        else if ["Hike", "Run", "Ride"].contains s then [Cond.actType s]
        else [Cond.gearType s])

/-- The LEFT JOIN `ON a.gear_id = b.id`: the joined gear type of a row, or
`none` (SQL NULL) when the row has no gear or no gear row matches. -/
def gearTypeOf (gears : List GearRow) (r : StoredActivity) : Option String :=
  match r.gear_id with
  | none => none
  | some gid =>
    match gears.find? (fun g => g.id == gid) with
    | none => none
    | some g => some g.type

/-- A contains check on character lists: some suffix of the second list
starts with the first list. -/
def likeContains (pat : List Char) : List Char → Bool
  | [] => List.isPrefixOf pat []
  | c :: cs => List.isPrefixOf pat (c :: cs) || likeContains pat cs

/-- Modelled from the spec: the SQL engine's case-insensitive
`LIKE concat(percent, pat, percent)` on the name column; a NULL name never
matches. The engine is an external collaborator. -/
def nameMatches (pat : String) (nm : Option String) : Bool :=
  match nm with
  | none => false
  | some s => likeContains pat.toLower.toList s.toLower.toList

/-- Evaluation of one WHERE clause against a joined row. -/
def evalCond (gears : List GearRow) (r : StoredActivity) : Cond → Bool
  | .dateLe d => decide (r.date ≤ d)
  | .dateGe d => decide (d ≤ r.date)
  | .nameLike pat => nameMatches pat r.name
  | .actType s => r.type == s
  | .gearType s => gearTypeOf gears r == some s

/-- Sort key of `ORDER BY date DESC`: later dates first. -/
def dateDesc (x y : StoredActivity) : Prop := y.date ≤ x.date

instance : DecidableRel dateDesc := fun _ _ => Int.decLe _ _

instance : IsTotal StoredActivity dateDesc :=
  ⟨fun x y => (le_total y.date x.date).imp id id⟩

instance : IsTrans StoredActivity dateDesc :=
  ⟨fun _ _ _ hxy hyz => le_trans hyz hxy⟩

/-- Embedding of `Strava.get_activities`: the rows of the joined table that
satisfy the AND of the built conditions, ordered by date descending (the
engine's ORDER BY, modelled as a sort). -/
def get_activities (gears : List GearRow) (table : List StoredActivity)
    (before after : Option Int) (nm : Option String) (ty : Option String) :
    List StoredActivity :=
  List.insertionSort dateDesc
    (table.filter (fun r => (buildConds before after nm ty).all (evalCond gears r)))

/-- Location per the spec's words: first address component present in the
priority order, with the first two digits of the postal code appended in
parentheses when the country is France and a postal code is present. -/
def spec_location (address : Address) : String :=
  let city :=
    match ["hamlet", "village", "city_district", "city", "town"].findSome?
        (fun k => address.lookup k) with
    | some c => c
    | none => ""
  let code :=
    if address.lookup "country" = some "France" then
      match address.lookup "postcode" with
      | some pc => " (" ++ pc.take 2 ++ ")"
      | none => ""
    else ""
  city ++ code

/-- The first zone of kind heartrate, per the spec's words. -/
def firstHeartrate (zs : List Zone) : Option Zone :=
  zs.find? (fun z => z.type == "heartrate")

/-- A neutral concrete activity used to build the concrete test inputs. -/
def baseActivity : Activity :=
  { id := 1
    athlete := 0
    name := none
    type := "Ride"
    commute := false
    start_date_local := 0
    moving_time := none
    elapsed_time := none
    gear_id := none
    average_heartrate := none
    max_heartrate := none
    suffer_score := none
    calories := none
    description := none
    has_heartrate := false
    zones := .ok none
    geo := none }

/-- A commute-flagged ride, new to the store. -/
def commuteActivity : Activity :=
  { baseActivity with id := 11, commute := true, type := "Ride" }

/-- An activity whose type is not a ride, run or hike. -/
def swimActivity : Activity :=
  { baseActivity with id := 12, type := "Swim" }

/-- An activity with heart-rate data whose zones hold no heartrate kind and
whose suffer score is absent. -/
def c10Activity : Activity :=
  { baseActivity with
      id := 13
      has_heartrate := true
      average_heartrate := some 150
      suffer_score := none
      zones := .ok (some [{ type := "power", points := 3 }]) }

/-- An activity with heart-rate data and a suffer score whose zones hold no
heartrate kind. -/
def c10wActivity : Activity :=
  { baseActivity with
      id := 14
      has_heartrate := true
      average_heartrate := some 150
      suffer_score := some 11
      zones := .ok (some [{ type := "power", points := 3 }]) }

/-- An activity used for the sync idempotence witness. -/
def syncActivity : Activity :=
  { baseActivity with id := 21, start_date_local := 50 }

/-- A concrete stored row used by the query witnesses. -/
def rowEarly : StoredActivity :=
  { id := 1
    athlete := 0
    name := some "Morning ride"
    location := ""
    date := 5
    moving_time := ""
    elapsed_time := ""
    gear_id := none
    average_heartrate := 0
    max_heartrate := some 0
    suffer_score := 0
    red_points := some 0
    description := none
    commute := 0
    type := "Ride"
    calories := 0 }

/-- A later concrete stored row used by the query witnesses. -/
def rowLate : StoredActivity :=
  { rowEarly with id := 2, date := 9 }

/-- Helper: the two-digit pad yields a string of length 2 on the range of a
minutes or seconds field. -/
theorem format02d_length (m : Int) (h1 : 0 ≤ m) (h2 : m < 60) :
    (format02d m).length = 2 := by
  lift m to ℕ using h1
  have hn : m < 60 := by exact_mod_cast h2
  exact (by decide : ∀ n : Nat, n < 60 → (format02d (Int.ofNat n)).length = 2) m hn

/-- C4: for every non-negative duration `t` (in seconds),
`_format_timedelta` yields `H:MM:SS` with `H` the unbounded whole number of
hours and the minutes and seconds zero-padded to two digits; an absent
duration yields the empty string. -/
theorem format_timedelta_spec (t : Int) (_h : 0 ≤ t) :
    _format_timedelta (some t) =
      toString (t / 3600) ++ ":" ++ format02d (t / 60 % 60) ++ ":" ++ format02d (t % 60)
    ∧ (format02d (t / 60 % 60)).length = 2
    ∧ (format02d (t % 60)).length = 2
    ∧ _format_timedelta none = "" := by
  refine ⟨?_, ?_, ?_, rfl⟩
  · show toString (Int.fdiv t 3600) ++ ":" ++ format02d (Int.fdiv (Int.fmod t 3600) 60)
        ++ ":" ++ format02d (Int.fmod (Int.fmod t 3600) 60) = _
    rw [Int.fdiv_eq_ediv _ (by norm_num), Int.fmod_eq_emod _ (by norm_num),
      Int.fdiv_eq_ediv _ (by norm_num), Int.fmod_eq_emod _ (by norm_num)]
    have h1 : t % 3600 / 60 = t / 60 % 60 := by omega
    have h2 : t % 3600 % 60 = t % 60 := by omega
    rw [h1, h2]
  · exact format02d_length _ (by omega) (by omega)
  · exact format02d_length _ (by omega) (by omega)

/-- Witness for C4 at 3723 seconds (1 hour, 2 minutes, 3 seconds). -/
theorem format_timedelta_spec_witness :
    _format_timedelta (some 3723) =
      toString ((3723 : Int) / 3600) ++ ":" ++ format02d (3723 / 60 % 60)
      ++ ":" ++ format02d (3723 % 60)
    ∧ (format02d ((3723 : Int) / 60 % 60)).length = 2
    ∧ (format02d ((3723 : Int) % 60)).length = 2
    ∧ _format_timedelta none = "" :=
  format_timedelta_spec 3723 (by norm_num)

/-- C9: a geocoder response whose address mapping lacks a country key makes
`_get_location` raise (the unguarded subscript), even though a city
component is present. -/
theorem location_missing_country_raises :
    _get_location (some (some [("city", "Lyon")])) = .error ()
    ∧ cityLoop [("city", "Lyon")] ["hamlet", "village", "city_district", "city", "town"]
        = "Lyon" :=
  ⟨rfl, rfl⟩

/-- Helper: the priority-key loop of `_get_location` computes the first
present component of the priority list. -/
theorem cityLoop_eq_findSome (address : Address) (ks : List String) :
    cityLoop address ks = ((ks.findSome? (fun k => address.lookup k)).getD "") := by
  induction ks with
  | nil => rfl
  | cons k ks ih =>
    simp only [cityLoop, List.findSome?]
    cases address.lookup k with
    | none => simpa using ih
    | some v => rfl

/-- C6: on a usable address (one holding a country key), `_get_location`
returns the first component present in the priority order
hamlet, village, city_district, city, town, with the first two digits of
the postal code appended in parentheses when the country is France and a
postal code is present; an unusable reverse lookup yields the empty
string. -/
theorem location_spec (address : Address) (country : String)
    (h : address.lookup "country" = some country) :
    _get_location (some (some address)) = .ok (spec_location address)
    ∧ _get_location none = .ok ""
    ∧ _get_location (some none) = .ok "" := by
  refine ⟨?_, rfl, rfl⟩
  simp only [_get_location, spec_location, h, cityLoop_eq_findSome]
  cases hfs : List.findSome? (fun k => address.lookup k)
      ["hamlet", "village", "city_district", "city", "town"] with
  | none =>
    by_cases hc : country = "France"
    · subst hc
      simp [hfs]
    · have hb : (country == "France") = false := by simpa using hc
      simp [hfs, hb, hc]
  | some c =>
    by_cases hc : country = "France"
    · subst hc
      simp [hfs]
    · have hb : (country == "France") = false := by simpa using hc
      simp [hfs, hb, hc]

/-- Witness for C6: the Lyon example from the spec. -/
theorem location_spec_witness :
    _get_location
        (some (some [("city", "Lyon"), ("postcode", "69001"), ("country", "France")]))
      = .ok "Lyon (69)" := by
  have h :=
    (location_spec [("city", "Lyon"), ("postcode", "69001"), ("country", "France")]
      "France" rfl).1
  rw [h]
  rfl

/-- C1 evidence: `push_activity` has no commute check, so a commute-flagged
ride that is new to the store is inserted — a StoredActivity with
`commute = 1` is produced, contradicting the claim, the spec and the
class docstring (a database of the rides with no commute). -/
theorem commute_activity_inserted :
    push_activity false [] commuteActivity = .ok [mkRow false "" commuteActivity]
    ∧ (mkRow false "" commuteActivity).commute = 1
    ∧ commuteActivity.commute = true :=
  ⟨rfl, rfl, rfl⟩

/-- Helper: the type guard makes `push_activity` return the table
unchanged. -/
theorem push_not_valid (wp : Bool) (table : List StoredActivity) (a : Activity)
    (hv : validType a.type = false) :
    push_activity wp table a = .ok table := by
  unfold push_activity
  by_cases he : activityExists table a.id <;> simp [he, hv]

/-- C3: an activity whose type is not Ride, Run or Hike is never inserted:
`push_activity` returns the table unchanged and raises nothing. -/
theorem invalid_type_skipped (wp : Bool) (table : List StoredActivity) (a : Activity)
    (h1 : a.type ≠ "Ride") (h2 : a.type ≠ "Run") (h3 : a.type ≠ "Hike") :
    push_activity wp table a = .ok table := by
  have hv : validType a.type = false := by
    simp [validType, h1, h2, h3]
  exact push_not_valid wp table a hv

/-- Witness for C3: a swim is skipped. -/
theorem invalid_type_skipped_witness :
    push_activity false [] swimActivity = .ok [] :=
  invalid_type_skipped false [] swimActivity (by decide) (by decide) (by decide)

/-- Helper: the zone loop of `_get_points` returns the points of the first
zone of kind heartrate, or Python None when there is none. -/
theorem pointsLoop_eq_firstHeartrate (zs : List Zone) :
    pointsLoop zs = (firstHeartrate zs).map (fun z => z.points) := by
  induction zs with
  | nil => rfl
  | cons z zs ih =>
    simp only [pointsLoop, firstHeartrate, List.find?]
    by_cases h : (z.type == "heartrate") = true
    · simp [h]
    · simp only [Bool.not_eq_true] at h
      simp [h, ih, firstHeartrate]

/-- C2: the red-points score is `0` unless the `with_points` flag is on and
the activity has heart-rate data; when both hold and a zone of kind
heartrate exists, it is the point value of the first such zone; it is `0`
when the zone list is empty, when the zones attribute is absent, and when
the zones lookup raises. -/
theorem points_spec (wp : Bool) (a : Activity) :
    ((wp = false ∨ a.has_heartrate = false) → _get_points wp a = some 0)
    ∧ (∀ zs z, wp = true → a.has_heartrate = true → a.zones = .ok (some zs) →
        firstHeartrate zs = some z → _get_points wp a = some z.points)
    ∧ (wp = true → a.has_heartrate = true → a.zones = .ok (some []) →
        _get_points wp a = some 0)
    ∧ (∀ e, wp = true → a.has_heartrate = true → a.zones = .error e →
        _get_points wp a = some 0)
    ∧ (wp = true → a.has_heartrate = true → a.zones = .ok none →
        _get_points wp a = some 0) := by
  refine ⟨?_, ?_, ?_, ?_, ?_⟩
  · rintro (hw | hh)
    · simp [_get_points, hw]
    · simp [_get_points, hh]
  · intro zs z hw hh hz hf
    have hne : zs.length ≠ 0 := by
      intro h0
      rw [List.length_eq_zero] at h0
      subst h0
      simp [firstHeartrate] at hf
    simp [_get_points, hw, hh, hz, hne, pointsLoop_eq_firstHeartrate, hf]
  · intro hw hh hz
    simp [_get_points, hw, hh, hz, pointsLoop]
  · intro e hw hh hz
    simp [_get_points, hw, hh, hz]
  · intro hw hh hz
    simp [_get_points, hw, hh, hz]

/-- Witness for C2: each branch at a concrete activity — flag off; a
heartrate zone with 12 points behind a power zone; empty zones; a raising
lookup; an absent zones attribute. -/
theorem points_spec_witness :
    _get_points false baseActivity = some 0
    ∧ _get_points true
        { baseActivity with
            has_heartrate := true
            zones := .ok (some [{ type := "power", points := 5 },
                                { type := "heartrate", points := 12 }]) } = some 12
    ∧ _get_points true
        { baseActivity with has_heartrate := true, zones := .ok (some []) } = some 0
    ∧ _get_points true
        { baseActivity with has_heartrate := true, zones := .error () } = some 0
    ∧ _get_points true
        { baseActivity with has_heartrate := true, zones := .ok none } = some 0 :=
  ⟨(points_spec false baseActivity).1 (Or.inl rfl),
   (points_spec true _).2.1
     [{ type := "power", points := 5 }, { type := "heartrate", points := 12 }]
     { type := "heartrate", points := 12 } rfl rfl rfl (by decide),
   (points_spec true _).2.2.1 rfl rfl rfl,
   (points_spec true _).2.2.2.1 () rfl rfl rfl,
   (points_spec true _).2.2.2.2 rfl rfl rfl⟩

/-- C10 counterexample: with the flag on, heart-rate data present and a
non-empty zone list with no heartrate kind, `_get_points` does return
Python None — but with an absent suffer score the pushed row stores
`red_points = 0`, not None, so the stored value the claim asserts fails. -/
theorem red_points_none_not_stored_cex :
    _get_points true c10Activity = none
    ∧ push_activity true [] c10Activity = .ok [mkRow true "" c10Activity]
    ∧ (mkRow true "" c10Activity).red_points = some 0
    ∧ (mkRow true "" c10Activity).red_points ≠ none :=
  ⟨rfl, rfl, rfl, by decide⟩

/-- C10 amended: with the flag on and heart-rate data present, a non-empty
zone list with no zone of kind heartrate makes `_get_points` return None
(no value) rather than `0`; and when the activity moreover reports an
average heart rate and a suffer score (the guards of the assignment in
`push_activity`), that None is the `red_points` value of the inserted
row. -/
theorem red_points_none_amended (a : Activity) (zs : List Zone)
    (table : List StoredActivity) (loc : String)
    (hh : a.has_heartrate = true) (hz : a.zones = .ok (some zs)) (hne : zs ≠ [])
    (hno : ∀ z ∈ zs, z.type ≠ "heartrate")
    (havg : a.average_heartrate ≠ none) (hsuf : a.suffer_score ≠ none)
    (hex : activityExists table a.id = false) (hty : validType a.type = true)
    (hgeo : _get_location a.geo = .ok loc) :
    _get_points true a = none
    ∧ push_activity true table a = .ok (table ++ [mkRow true loc a])
    ∧ (mkRow true loc a).red_points = none := by
  have hfind : firstHeartrate zs = none := by
    rw [firstHeartrate, List.find?_eq_none]
    intro z hzz
    simpa using hno z hzz
  have hlen : zs.length ≠ 0 := by
    intro h0
    rw [List.length_eq_zero] at h0
    exact hne h0
  have hpts : _get_points true a = none := by
    simp [_get_points, hh, hz, hlen, pointsLoop_eq_firstHeartrate, hfind]
  refine ⟨hpts, ?_, ?_⟩
  · simp [push_activity, hex, hty, hgeo]
  · obtain ⟨v, hv⟩ := Option.ne_none_iff_exists.mp havg
    obtain ⟨s, hs⟩ := Option.ne_none_iff_exists.mp hsuf
    simp [mkRow, ← hv, ← hs, hpts]

/-- Witness for the amended C10 at a concrete activity with a power-only
zone list, an average heart rate and a suffer score. -/
theorem red_points_none_amended_witness :
    _get_points true c10wActivity = none
    ∧ push_activity true [] c10wActivity = .ok ([] ++ [mkRow true "" c10wActivity])
    ∧ (mkRow true "" c10wActivity).red_points = none :=
  red_points_none_amended c10wActivity [{ type := "power", points := 3 }] [] ""
    rfl rfl (by decide) (by decide) (by decide) (by decide) rfl rfl rfl

/-- C5: the category filter dispatch of `get_activities`: a value among
Hike, Run, Ride adds a clause on the activity type column; a value among
Road, MTB, CX, TT adds a clause on the joined gear type column; any other
value drops the filter entirely (the query is the one with no category
filter) and nothing is raised (the builder is a total function). -/
theorem category_dispatch (before after : Option Int) (nm : Option String) (s : String) :
    (["Hike", "Run", "Ride"].contains s = true →
      buildConds before after nm (some s) =
        buildConds before after nm none ++ [Cond.actType s])
    ∧ (["Road", "MTB", "CX", "TT"].contains s = true →
      buildConds before after nm (some s) =
        buildConds before after nm none ++ [Cond.gearType s])
    ∧ (ACTIVITY_TYPES.contains s = false →
      buildConds before after nm (some s) = buildConds before after nm none)
    ∧ (∀ gears table, ACTIVITY_TYPES.contains s = false →
      get_activities gears table before after nm (some s) =
        get_activities gears table before after nm none) := by
  have hnone : ∀ ty, buildConds before after nm ty =
      (match before with | none => [] | some d => [Cond.dateLe d])
      ++ (match after with | none => [] | some d => [Cond.dateGe d])
      ++ (match nm with | none => [] | some v => [Cond.nameLike v])
      ++ (match ty with
          | none => []
          | some v =>
            if !(ACTIVITY_TYPES.contains v) then []
            else if ["Hike", "Run", "Ride"].contains v then [Cond.actType v]
            else [Cond.gearType v]) := fun _ => rfl
  refine ⟨?_, ?_, ?_, ?_⟩
  · intro h
    have hs : s = "Hike" ∨ s = "Run" ∨ s = "Ride" := by
      simpa using h
    rcases hs with rfl | rfl | rfl <;>
      simp [hnone, ACTIVITY_TYPES, List.append_assoc]
  · intro h
    have hs : s = "Road" ∨ s = "MTB" ∨ s = "CX" ∨ s = "TT" := by
      simpa using h
    rcases hs with rfl | rfl | rfl | rfl <;>
      simp [hnone, ACTIVITY_TYPES, List.append_assoc]
  · intro h
    have hnm : s ∉ ACTIVITY_TYPES := by simpa using h
    simp [hnone, hnm]
  · intro gears table h
    have hnm : s ∉ ACTIVITY_TYPES := by simpa using h
    have hb : buildConds before after nm (some s) = buildConds before after nm none := by
      simp [hnone, hnm]
    simp [get_activities, hb]

/-- Witness for C5 at Ride, MTB and Scooter with no other filters. -/
theorem category_dispatch_witness :
    (buildConds none none none (some "Ride") =
      buildConds none none none none ++ [Cond.actType "Ride"])
    ∧ (buildConds none none none (some "MTB") =
      buildConds none none none none ++ [Cond.gearType "MTB"])
    ∧ (buildConds none none none (some "Scooter") = buildConds none none none none)
    ∧ get_activities [] [rowEarly] none none none (some "Scooter") =
        get_activities [] [rowEarly] none none none none :=
  ⟨(category_dispatch none none none "Ride").1 (by decide),
   (category_dispatch none none none "MTB").2.1 (by decide),
   (category_dispatch none none none "Scooter").2.2.1 (by decide),
   (category_dispatch none none none "Scooter").2.2.2 [] [rowEarly] (by decide)⟩

/-- Helper: evaluation of the built condition list is the conjunction of
the evaluations of the individual optional filters. -/
theorem buildConds_all_iff (gears : List GearRow) (r : StoredActivity)
    (before after : Option Int) (nm ty : Option String)
    (hty : ty = none ∨ ∃ s, ty = some s ∧ ACTIVITY_TYPES.contains s = true) :
    ((buildConds before after nm ty).all (evalCond gears r) = true) ↔
      ((∀ d, before = some d → r.date ≤ d)
        ∧ (∀ d, after = some d → d ≤ r.date)
        ∧ (∀ s, nm = some s → nameMatches s r.name = true)
        ∧ (∀ s, ty = some s →
            if ["Hike", "Run", "Ride"].contains s then r.type = s
            else gearTypeOf gears r = some s)) := by
  have hsplit : ∀ l1 l2 : List Cond,
      ((l1 ++ l2).all (evalCond gears r) = true) ↔
        (l1.all (evalCond gears r) = true ∧ l2.all (evalCond gears r) = true) := by
    intro l1 l2
    simp [List.all_append]
  rcases hty with rfl | ⟨s, rfl, hmem⟩
  · cases before <;> cases after <;> cases nm <;>
      simp_all [buildConds, hsplit, evalCond]
  · cases before <;> cases after <;> cases nm <;>
      simp_all [buildConds, hsplit, evalCond, hmem] <;>
      by_cases hc : ["Hike", "Run", "Ride"].contains s <;>
        simp_all [evalCond]

/-- C7: `get_activities` returns exactly the stored rows satisfying the
conjunction of the supplied filters — date lower and upper bounds both
inclusive, name contains-match, and (for a recognized value) the category
dispatch — and the result is sorted by date descending. -/
theorem query_filters_spec (gears : List GearRow) (table : List StoredActivity)
    (before after : Option Int) (nm ty : Option String)
    (hty : ty = none ∨ ∃ s, ty = some s ∧ ACTIVITY_TYPES.contains s = true) :
    (∀ r, r ∈ get_activities gears table before after nm ty ↔
      (r ∈ table
        ∧ (∀ d, before = some d → r.date ≤ d)
        ∧ (∀ d, after = some d → d ≤ r.date)
        ∧ (∀ s, nm = some s → nameMatches s r.name = true)
        ∧ (∀ s, ty = some s →
            if ["Hike", "Run", "Ride"].contains s then r.type = s
            else gearTypeOf gears r = some s)))
    ∧ List.Sorted dateDesc (get_activities gears table before after nm ty) := by
  constructor
  · intro r
    rw [get_activities, List.mem_insertionSort, List.mem_filter,
      buildConds_all_iff gears r before after nm ty hty]
  · exact List.sorted_insertionSort dateDesc _

/-- Witness for C7: with an inclusive upper date bound of 10 and no other
filters, the row dated 9 is selected from a two-row table. -/
theorem query_filters_spec_witness :
    rowLate ∈ get_activities [] [rowEarly, rowLate] (some 10) none none none :=
  ((query_filters_spec [] [rowEarly, rowLate] (some 10) none none none
      (Or.inl rfl)).1 rowLate).mpr
    ⟨by decide,
     fun d h => by cases h; decide,
     fun d h => Option.noConfusion h,
     fun s h => Option.noConfusion h,
     fun s h => Option.noConfusion h⟩

/-- Helper: a successful push only ever appends to the table. -/
theorem push_eq_append (wp : Bool) (t : List StoredActivity) (a : Activity)
    (t' : List StoredActivity) (h : push_activity wp t a = .ok t') :
    ∃ ex, t' = t ++ ex := by
  unfold push_activity at h
  by_cases he : activityExists t a.id
  · simp [he] at h
    exact ⟨[], by simp [← h]⟩
  · simp [he] at h
    by_cases hv : validType a.type
    · simp [hv] at h
      cases hgeo : _get_location a.geo with
      | error e => rw [hgeo] at h; cases h
      | ok loc =>
        rw [hgeo] at h
        cases h
        exact ⟨[mkRow wp loc a], rfl⟩
    · simp [hv] at h
      exact ⟨[], by simp [← h]⟩

/-- Helper: the duplicate check is monotone under appending rows. -/
theorem exists_mono (t ex : List StoredActivity) (i : Int)
    (h : activityExists t i = true) : activityExists (t ++ ex) i = true := by
  simp only [activityExists, List.any_append, Bool.or_eq_true]
  exact Or.inl h

/-- Helper: after a successful push of a valid-typed activity, its id is in
the table. -/
theorem push_adds_id (wp : Bool) (t : List StoredActivity) (a : Activity)
    (t' : List StoredActivity) (h : push_activity wp t a = .ok t')
    (hv : validType a.type = true) : activityExists t' a.id = true := by
  unfold push_activity at h
  by_cases he : activityExists t a.id
  · simp [he] at h
    rw [← h]
    exact he
  · simp [he, hv] at h
    cases hgeo : _get_location a.geo with
    | error e => rw [hgeo] at h; cases h
    | ok loc =>
      rw [hgeo] at h
      cases h
      simp [activityExists, List.any_append, mkRow]

/-- Helper: a push of an already-present id leaves the table unchanged. -/
theorem push_skips_existing (wp : Bool) (t : List StoredActivity) (a : Activity)
    (h : activityExists t a.id = true) : push_activity wp t a = .ok t := by
  simp [push_activity, h]

/-- Helper: a successful batch only ever appends to the table. -/
theorem update_list_eq_append (wp : Bool) (t : List StoredActivity) (l : List Activity)
    (t' : List StoredActivity) (h : update_list wp t l = .ok t') :
    ∃ ex, t' = t ++ ex := by
  induction l generalizing t with
  | nil =>
    cases h
    exact ⟨[], by simp⟩
  | cons a rest ih =>
    unfold update_list at h
    cases hp : push_activity wp t a with
    | error e => rw [hp] at h; cases h
    | ok t1 =>
      rw [hp] at h
      obtain ⟨e1, he1⟩ := push_eq_append wp t a t1 hp
      obtain ⟨e2, he2⟩ := ih t1 h
      exact ⟨e1 ++ e2, by rw [he2, he1, List.append_assoc]⟩

/-- Helper: after a successful batch, every valid-typed activity of the
batch has its id in the resulting table. -/
theorem update_list_has_ids (wp : Bool) (t : List StoredActivity) (l : List Activity)
    (t' : List StoredActivity) (h : update_list wp t l = .ok t') :
    ∀ a ∈ l, validType a.type = true → activityExists t' a.id = true := by
  induction l generalizing t with
  | nil => intro a ha; cases ha
  | cons b rest ih =>
    intro a ha hv
    unfold update_list at h
    cases hp : push_activity wp t b with
    | error e => rw [hp] at h; cases h
    | ok t1 =>
      rw [hp] at h
      cases ha with
      | head =>
        obtain ⟨ex, hex⟩ := update_list_eq_append wp t1 rest t' h
        rw [hex]
        exact exists_mono t1 ex b.id (push_adds_id wp t b t1 hp hv)
      | tail _ hmem => exact ih t1 h a hmem hv

/-- Helper: a batch in which every activity is either invalid-typed or
already present leaves the table unchanged. -/
theorem update_list_noop (wp : Bool) (t : List StoredActivity) (l : List Activity)
    (h : ∀ a ∈ l, validType a.type = false ∨ activityExists t a.id = true) :
    update_list wp t l = .ok t := by
  induction l with
  | nil => rfl
  | cons a rest ih =>
    have ha := h a (List.mem_cons_self a rest)
    have hp : push_activity wp t a = .ok t := by
      cases ha with
      | inl hv => exact push_not_valid wp t a hv
      | inr he => exact push_skips_existing wp t a he
    unfold update_list
    rw [hp]
    exact ih (fun b hb => h b (List.mem_cons_of_mem a hb))

/-- Helper: the latest stored date only grows when rows are appended. -/
theorem latestDate_append (t ex : List StoredActivity) (d : Int)
    (h : latestDate t = some d) :
    ∃ d2, latestDate (t ++ ex) = some d2 ∧ d ≤ d2 := by
  induction t generalizing d with
  | nil => cases h
  | cons r rs ih =>
    rw [latestDate] at h
    rw [List.cons_append, latestDate]
    cases hrs : latestDate rs with
    | none =>
      rw [hrs] at h
      cases h
      cases hre : latestDate (rs ++ ex) with
      | none => exact ⟨r.date, rfl, le_refl _⟩
      | some e => exact ⟨max r.date e, rfl, le_max_left _ _⟩
    | some d0 =>
      rw [hrs] at h
      cases h
      obtain ⟨d1, hd1, hle⟩ := ih d0 hrs
      rw [hd1]
      exact ⟨max r.date d1, rfl, max_le_max (le_refl _) hle⟩

/-- Helper: the latest date is absent exactly on the empty table. -/
theorem latestDate_eq_none (t : List StoredActivity) :
    latestDate t = none ↔ t = [] := by
  cases t with
  | nil => simp [latestDate]
  | cons r rs =>
    rw [latestDate]
    cases latestDate rs <;> simp

/-- Helper: fetching above the later bound yields a subset of fetching
above the earlier bound. -/
theorem fetch_subset (remote : List Activity) (t ex : List StoredActivity) :
    ∀ a ∈ fetchActivities remote (latestDate (t ++ ex)),
      a ∈ fetchActivities remote (latestDate t) := by
  intro a ha
  cases h1 : latestDate (t ++ ex) with
  | none =>
    have : t ++ ex = [] := (latestDate_eq_none _).mp h1
    have ht : t = [] := by
      cases t with
      | nil => rfl
      | cons r rs => cases this
    rw [ht]
    rw [h1] at ha
    simpa [fetchActivities] using ha
  | some d1 =>
    rw [h1] at ha
    rw [fetchActivities] at ha
    have hmem : a ∈ remote := List.mem_of_mem_filter ha
    have hd1 : d1 ≤ a.start_date_local := by
      have := List.of_mem_filter ha
      simpa using this
    cases h0 : latestDate t with
    | none => simpa [fetchActivities] using hmem
    | some d0 =>
      obtain ⟨d1', hd1', hle⟩ := latestDate_append t ex d0 h0
      rw [h1] at hd1'
      cases hd1'
      rw [fetchActivities, List.mem_filter]
      exact ⟨hmem, by simpa using le_trans hle hd1⟩

/-- C8: sync is idempotent. If a run of `update_activities` over a fixed
remote data set succeeds and produces a table, a second run over the same
remote data set inserts zero new rows: its existence check by identifier
skips every activity and the table is returned unchanged. -/
theorem sync_idempotent (wp : Bool) (remote : List Activity)
    (t t1 : List StoredActivity) (h : update_activities wp remote t = .ok t1) :
    update_activities wp remote t1 = .ok t1 := by
  unfold update_activities at h ⊢
  obtain ⟨ex, hex⟩ := update_list_eq_append wp t _ t1 h
  apply update_list_noop
  intro a ha
  by_cases hv : validType a.type
  · right
    have hmem : a ∈ fetchActivities remote (latestDate t) := by
      rw [hex] at ha
      exact fetch_subset remote t ex a ha
    exact update_list_has_ids wp t _ t1 h a hmem hv
  · left
    simpa using hv

/-- Witness for C8: one fresh ride in the remote set, synced into an empty
store and then synced again. -/
theorem sync_idempotent_witness :
    update_activities false [syncActivity] [mkRow false "" syncActivity]
      = .ok [mkRow false "" syncActivity] :=
  sync_idempotent false [syncActivity] [] [mkRow false "" syncActivity] rfl

end StravaDB
